import Mathlib

set_option maxRecDepth 4000

/-!
Verification development for the ha_cluster_exporter projection engine
(Go sources: the DRBD collector in package `drbd` and the Pacemaker collector
in `collector/pacemaker/pacemaker.go`).

The Go code is shallowly embedded: each record struct becomes a Lean
structure, each `record*` method becomes a pure function from the snapshot
to the list of emitted metric samples, and the Prometheus channel becomes
the returned list.  Float64 metric values are modelled as an inductive
`Value` with an exact rational payload plus the two infinities; every value
the code can emit in the claims under study is either an exact small
integer, 0/1, or one of the infinity sentinels, so the exact model agrees
with IEEE float64 on all claim-relevant comparisons (float64 conversion of
a 64-bit integer rounds only above 2^53, and no claim compares two values
in that range for equality with a third).
-/

/-- A float64 metric value, modelled exactly: a finite rational or ±Inf
(`math.Inf(1)` / `math.Inf(-1)` in the Go sources). -/
inductive Value where
  | finite (q : ℚ)
  | posInf
  | negInf
deriving DecidableEq, Repr

/-- One emitted metric sample: metric name, value, and the ordered label
values handed to `MakeGaugeMetric`/`MakeCounterMetric`. -/
structure Sample where
  name : String
  value : Value
  labels : List String
deriving DecidableEq, Repr

/-- `leadsWith pat cs` is true iff the character list `cs` starts with
`pat` (Go `strings.HasPrefix` on rune lists; all strings involved are
ASCII, where runes and bytes coincide). -/
def leadsWith : List Char → List Char → Bool
  | [], _ => true
  | _ :: _, [] => false
  | p :: ps, c :: cs => p == c && leadsWith ps cs

/-- Fuel-driven splitter behind `goSplit`: scans left to right, cutting at
each non-overlapping occurrence of `sep`.  For `fuel ≥ s.length` and a
non-empty `sep` the fuel never runs out (each step consumes at least one
character). -/
def splitFuel (sep : List Char) : Nat → List Char → List (List Char)
  | _, [] => [[]]
  | 0, s => [s]
  | Nat.succ fuel, c :: cs =>
    if leadsWith sep (c :: cs) then
      [] :: splitFuel sep fuel ((c :: cs).drop sep.length)
    else
      match splitFuel sep fuel cs with
      | [] => [[c]]
      | p :: ps => (c :: p) :: ps

/-- Go `strings.Split` for a non-empty separator: left-to-right,
non-overlapping occurrences, always at least one element, `Split("", sep)`
is `[""]`. -/
def goSplit (s sep : String) : List String :=
  (splitFuel sep.data s.data.length s.data).map fun cs => String.mk cs

/-- Go `unicode.ToLower` restricted to ASCII (every role/state string the
cluster tools produce is ASCII, where Go's Unicode lowering is exactly the
`'A'..'Z' ↦ 'a'..'z'` shift). -/
def goCharToLower (c : Char) : Char :=
  if 65 ≤ c.toNat ∧ c.toNat ≤ 90 then Char.ofNat (c.toNat + 32) else c

/-- Go `strings.ToLower`, restricted to ASCII inputs. -/
def goToLower (s : String) : String := String.mk (s.data.map goCharToLower)

/-- Decimal digits of `n`, most significant first, computed with fuel
(`fuel ≥ 1 + number of digits` suffices; callers pass `n + 1`). -/
def natDecimal : Nat → Nat → List Char
  | 0, _ => []
  | Nat.succ fuel, n =>
    if n < 10 then [Char.ofNat (48 + n)]
    else natDecimal fuel (n / 10) ++ [Char.ofNat (48 + n % 10)]

/-- Go `strconv.Itoa`: decimal rendering with a leading `-` for negatives. -/
def goItoa (i : Int) : String :=
  match i with
  | Int.ofNat n => String.mk (natDecimal (n + 1) n)
  | Int.negSucc m => String.mk ('-' :: natDecimal (m + 2) (m + 1))

/-- Go `strconv.FormatBool`. -/
def goFormatBool (b : Bool) : String := if b then "true" else "false"

/-! ## DRBD split-brain marker projection

Embeds `drbdCollector.recordDrbdSplitBrainMetric`.  The input is the
directory listing (file names returned by `ioutil.ReadDir`).  For each
file the code first checks `filepath.Glob(dir ++ "/drbd-split-brain-detected-*")`:
this is a directory-wide test (the glob matches when ANY file in the
directory starts with the marker prefix), not a test of the current file.
It then evaluates `strings.Split(f.Name(), "drbd-split-brain-detected-")[1]`.
When the current file name does not contain the separator the split yields
a one-element slice and the `[1]` index panics; we model a panic as cutting
the emission list short and raising a flag. -/

def splitBrainSeparator : String := "drbd-split-brain-detected-"

/-- Whether `filepath.Glob(dir ++ "/drbd-split-brain-detected-*")` returns a
non-nil match for the given directory listing: true iff some file name in
the directory starts with the marker prefix (the pattern has no other
metacharacters and `*` matches any, possibly empty, suffix). -/
def splitBrainGlobMatches (files : List String) : Bool :=
  files.any (fun f => leadsWith splitBrainSeparator.data f.data)

/-- Processing of a single directory entry inside the loop of
`recordDrbdSplitBrainMetric`.  `none` models a Go runtime panic
(index out of range); `some l` is the (possibly empty) list of samples the
iteration emits. -/
def splitBrainStep (hasMatch : Bool) (fname : String) : Option (List Sample) :=
  if !hasMatch then
    -- `match == nil` ⇒ `continue`
    some []
  else
    match goSplit fname splitBrainSeparator with
    | [] => none        -- unreachable: splitOn never returns []
    | [_] => none       -- `[1]` on a one-element slice: index-out-of-range panic
    | _ :: resAndVolume :: _ =>
      match goSplit resAndVolume "-" with
      | [r, v] => some [⟨"split_brain", Value.finite 1, [r, v]⟩]
      | _ => some []    -- `len(...) != 2` ⇒ `continue`

/-- `drbdCollector.recordDrbdSplitBrainMetric` over a directory listing.
Returns the samples written to the channel before completion or panic, and
a flag that is true iff the loop panicked. -/
def recordDrbdSplitBrainMetric (files : List String) : List Sample × Bool :=
  go (splitBrainGlobMatches files) files
where
  go (hasMatch : Bool) : List String → List Sample × Bool
  | [] => ([], false)
  | f :: rest =>
    match splitBrainStep hasMatch f with
    | none => ([], true)
    | some ss => (ss ++ (go hasMatch rest).1, (go hasMatch rest).2)

/-! ## DRBD status projection

Embeds the `drbdStatus` record struct and the main loop of
`drbdCollector.Collect`.  The outcome of
`exec.Command(drbdsetupPath, "status", "--json").Output()` followed by
`parseDrbdStatus` is modelled as an `Option (List DrbdStatus)`: `none`
covers both a failing command and JSON that fails to unmarshal, the two
cases in which `Collect` logs a warning and returns early. -/

structure DrbdDevice where
  volume : Int
  written : Int
  read : Int
  alWrites : Int
  bmWrites : Int
  upPending : Int
  loPending : Int
  quorum : Bool
  diskState : String
deriving DecidableEq, Repr

structure DrbdPeerDevice where
  volume : Int
  received : Int
  sent : Int
  pending : Int
  unacked : Int
  peerDiskState : String
  percentInSync : ℚ
deriving DecidableEq, Repr

structure DrbdConnection where
  peerNodeID : Int
  peerRole : String
  peerDevices : List DrbdPeerDevice
deriving DecidableEq, Repr

structure DrbdStatus where
  name : String
  role : String
  devices : List DrbdDevice
  connections : List DrbdConnection
deriving DecidableEq, Repr

/-- The eight samples the device loop of `drbdCollector.Collect` emits for
one device of one resource.  Note that the `role` label of the `resources`
sample is `resource.Role` verbatim, while `disk_state` goes through
`strings.ToLower`. -/
def drbdDeviceSamples (resName resRole : String) (d : DrbdDevice) : List Sample :=
  [ ⟨"resources", Value.finite 1, [resName, resRole, goItoa d.volume, goToLower d.diskState]⟩,
    ⟨"written", Value.finite d.written, [resName, goItoa d.volume]⟩,
    ⟨"read", Value.finite d.read, [resName, goItoa d.volume]⟩,
    ⟨"al_writes", Value.finite d.alWrites, [resName, goItoa d.volume]⟩,
    ⟨"bm_writes", Value.finite d.bmWrites, [resName, goItoa d.volume]⟩,
    ⟨"upper_pending", Value.finite d.upPending, [resName, goItoa d.volume]⟩,
    ⟨"lower_pending", Value.finite d.loPending, [resName, goItoa d.volume]⟩,
    if d.quorum then ⟨"quorum", Value.finite 1, [resName, goItoa d.volume]⟩
    else ⟨"quorum", Value.finite 0, [resName, goItoa d.volume]⟩ ]

/-- The six samples the peer-device loop emits for one peer device of one
connection. -/
def drbdPeerDeviceSamples (resName : String) (peerNodeID : Int) (peerRole : String)
    (pd : DrbdPeerDevice) : List Sample :=
  [ ⟨"connections", Value.finite 1,
      [resName, goItoa peerNodeID, peerRole, goItoa pd.volume, goToLower pd.peerDiskState]⟩,
    ⟨"connections_sync", Value.finite pd.percentInSync,
      [resName, goItoa peerNodeID, goItoa pd.volume]⟩,
    ⟨"connections_received", Value.finite pd.received,
      [resName, goItoa peerNodeID, goItoa pd.volume]⟩,
    ⟨"connections_sent", Value.finite pd.sent,
      [resName, goItoa peerNodeID, goItoa pd.volume]⟩,
    ⟨"connections_pending", Value.finite pd.pending,
      [resName, goItoa peerNodeID, goItoa pd.volume]⟩,
    ⟨"connections_unacked", Value.finite pd.unacked,
      [resName, goItoa peerNodeID, goItoa pd.volume]⟩ ]

/-- One connection of one resource: a connection with zero peer devices is
skipped with a warning (`continue`). -/
def drbdConnectionSamples (resName : String) (conn : DrbdConnection) : List Sample :=
  if conn.peerDevices = [] then []
  else (conn.peerDevices.map (drbdPeerDeviceSamples resName conn.peerNodeID conn.peerRole)).flatten

/-- One resource of the parsed status: the device loop, then — unless the
resource has zero connections, which is skipped with a warning — the
connection loop. -/
def drbdResourceSamples (r : DrbdStatus) : List Sample :=
  (r.devices.map (drbdDeviceSamples r.name r.role)).flatten ++
    (if r.connections = [] then []
     else (r.connections.map (drbdConnectionSamples r.name)).flatten)

/-- `drbdCollector.Collect`.  `files` is the split-brain directory listing;
`status` is `none` when `drbdsetup` fails or its JSON output fails to
parse.  The split-brain sub-pass runs first; a panic there (second
component `true`) aborts before the `drbdsetup` invocation. -/
def drbdCollect (files : List String) (status : Option (List DrbdStatus)) :
    List Sample × Bool :=
  let (sb, panicked) := recordDrbdSplitBrainMetric files
  if panicked then (sb, true)
  else
    match status with
    | none => (sb, false)
    | some resources => (sb ++ (resources.map drbdResourceSamples).flatten, false)

/-! ## Pacemaker snapshot model

Embeds the `crmmon.Root` / `cib.Root` shapes consumed by
`pacemakerCollector` (the parser packages themselves are schema-binding
glue; the fields below are exactly the ones the projection reads). -/

structure ClusterOptions where
  stonithEnabled : Bool
deriving DecidableEq, Repr

structure LastChange where
  time : String
deriving DecidableEq, Repr

structure CrmMonSummary where
  clusterOptions : ClusterOptions
  lastChange : LastChange
deriving DecidableEq, Repr

structure CrmMonResource where
  id : String
  role : String
  managed : Bool
  active : Bool
  orphaned : Bool
  blocked : Bool
  failed : Bool
  failureIgnored : Bool
deriving DecidableEq, Repr

structure CrmMonNode where
  name : String
  type : String
  online : Bool
  standby : Bool
  standbyOnFail : Bool
  maintenance : Bool
  pending : Bool
  unclean : Bool
  shutdown : Bool
  expectedUp : Bool
  dc : Bool
  resources : List CrmMonResource
deriving DecidableEq, Repr

structure ResourceHistoryEntry where
  name : String
  failCount : Int
  migrationThreshold : Int
deriving DecidableEq, Repr

structure NodeHistoryNode where
  name : String
  resourceHistory : List ResourceHistoryEntry
deriving DecidableEq, Repr

structure NodeHistory where
  node : List NodeHistoryNode
deriving DecidableEq, Repr

structure CrmMonRoot where
  summary : CrmMonSummary
  nodes : List CrmMonNode
  resources : List CrmMonResource
  nodeHistory : NodeHistory
deriving DecidableEq, Repr

structure RscLocation where
  id : String
  node : String
  resource : String
  role : String
  score : String
deriving DecidableEq, Repr

structure CibConstraints where
  rscLocations : List RscLocation
deriving DecidableEq, Repr

structure CibConfiguration where
  constraints : CibConstraints
deriving DecidableEq, Repr

structure CibRoot where
  configuration : CibConfiguration
deriving DecidableEq, Repr

/-! ## Pacemaker projection

Embeds `pacemakerCollector.Collect` and its `record*` helpers.  The two
parser invocations are modelled as `Option` inputs (`none` = invocation or
parse failure, on which `Collect` logs a warning and returns early).  Go
map iteration order is unspecified; the status maps are embedded as
association lists in source-literal order, which fixes an emission order
without changing the emitted sample multiset (the spec's design notes make
exactly this allowance). -/

/-- Digit-list accumulator behind `goAtoi`: the unbounded decimal value of
`cs`, or `none` if `cs` contains a non-digit. -/
def decValueAux : List Char → Nat → Option Nat
  | [], acc => some acc
  | c :: cs, acc =>
    if 48 ≤ c.toNat ∧ c.toNat ≤ 57 then decValueAux cs (acc * 10 + (c.toNat - 48))
    else none

/-- The leading-sign handling of Go `strconv.ParseInt`: strips one
optional `+`/`-` and reports whether the value is negated. -/
def signSplit : List Char → Bool × List Char
  | '-' :: rest => (true, rest)
  | '+' :: rest => (false, rest)
  | cs => (false, cs)

/-- Go `strconv.Atoi` (= `ParseInt(s, 10, 0)` on a 64-bit platform), with
the error discarded as at the call site `s, _ := strconv.Atoi(...)`.  Per
the strconv documentation the value component is 0 on a syntax error but
the *clamped* extreme (`math.MaxInt64` / `math.MinInt64`) on a range
error. -/
def goAtoi (s : String) : Int :=
  let sd := signSplit s.data
  if sd.2 = [] then 0    -- empty string or bare sign: syntax error
  else
    match decValueAux sd.2 0 with
    | none => 0  -- non-digit character: syntax error
    | some n =>
      if sd.1 then
        if (n : Int) > 2 ^ 63 then -(2 ^ 63) else -(n : Int)
      else
        if (n : Int) > 2 ^ 63 - 1 then 2 ^ 63 - 1 else (n : Int)

/-- The `switch node.Type` at the top of `recordNodes`. -/
def nodeType (t : String) : String :=
  if t = "member" ∨ t = "ping" ∨ t = "remote" then t else "unknown"

/-- The `nodeStatuses` map literal of `recordNodes`, in source order. -/
def nodeStatuses (n : CrmMonNode) : List (String × Bool) :=
  [ ("online", n.online), ("standby", n.standby), ("standby_onfail", n.standbyOnFail),
    ("maintenance", n.maintenance), ("pending", n.pending), ("unclean", n.unclean),
    ("shutdown", n.shutdown), ("expected_up", n.expectedUp), ("dc", n.dc) ]

/-- The `nodes` samples one node contributes (the status loop of
`recordNodes`). -/
def nodeStatusSamples (n : CrmMonNode) : List Sample :=
  (nodeStatuses n).filterMap fun sf =>
    if sf.2 then some ⟨"nodes", Value.finite 1, [n.name, nodeType n.type, sf.1]⟩
    else none

/-- The `resourceStatuses` map literal of `recordResource`, in source
order: the five real flags plus the empty-string pseudo-status that is on
exactly when all five are off. -/
def resourceStatuses (r : CrmMonResource) : List (String × Bool) :=
  [ ("active", r.active), ("orphaned", r.orphaned), ("blocked", r.blocked),
    ("failed", r.failed), ("failure_ignored", r.failureIgnored),
    ("", !(r.active || r.orphaned || r.blocked || r.failed || r.failureIgnored)) ]

/-- `pacemakerCollector.recordResource`. -/
def recordResource (r : CrmMonResource) (nodeName : String) : List Sample :=
  (resourceStatuses r).filterMap fun sf =>
    if sf.2 then
      some ⟨"resources", Value.finite 1,
        [nodeName, r.id, goToLower r.role, goFormatBool r.managed, sf.1]⟩
    else none

/-- `pacemakerCollector.recordNodeResources`. -/
def recordNodeResources (n : CrmMonNode) : List Sample :=
  (n.resources.map fun r => recordResource r n.name).flatten

/-- `pacemakerCollector.recordNodes` (status samples, then the node's own
resources, for each node in turn). -/
def recordNodes (crmMon : CrmMonRoot) : List Sample :=
  (crmMon.nodes.map fun n => nodeStatusSamples n ++ recordNodeResources n).flatten

/-- `pacemakerCollector.recordUngroupedResources`. -/
def recordUngroupedResources (crmMon : CrmMonRoot) : List Sample :=
  (crmMon.resources.map fun r => recordResource r "").flatten

/-- The fail-count sentinel decode inside `recordFailCounts`:
`float64(FailCount)`, replaced by `math.Inf(1)` when `FailCount >= 1000000`. -/
def failCountValue (n : Int) : Value :=
  if n ≥ 1000000 then Value.posInf else Value.finite n

/-- `pacemakerCollector.recordFailCounts`. -/
def recordFailCounts (crmMon : CrmMonRoot) : List Sample :=
  (crmMon.nodeHistory.node.map fun nh =>
    nh.resourceHistory.map fun rh =>
      (⟨"fail_count", failCountValue rh.failCount, [nh.name, rh.name]⟩ : Sample)).flatten

/-- `pacemakerCollector.recordMigrationThresholds`. -/
def recordMigrationThresholds (crmMon : CrmMonRoot) : List Sample :=
  (crmMon.nodeHistory.node.map fun nh =>
    nh.resourceHistory.map fun rh =>
      (⟨"migration_threshold", Value.finite rh.migrationThreshold,
        [nh.name, rh.name]⟩ : Sample)).flatten

/-- `pacemakerCollector.recordResourceAgentsChanges`.  `ansicParse` stands
for Go's `time.Parse(time.ANSIC, ·)` followed by `.Unix()`: `none` on a
parse error (warn and skip), `some t` the epoch seconds on success.  The
projection is parametric in it, since `time.Parse` is standard-library
code outside this repository. -/
def recordResourceAgentsChanges (ansicParse : String → Option Int)
    (crmMon : CrmMonRoot) : List Sample :=
  match ansicParse crmMon.summary.lastChange.time with
  | none => []
  | some t => [⟨"config_last_change", Value.finite t, []⟩]

/-- The score decode of `recordConstraints`: the two infinity tokens, and
otherwise `strconv.Atoi` with the error ignored. -/
def constraintScore (score : String) : Value :=
  if score = "INFINITY" then Value.posInf
  else if score = "-INFINITY" then Value.negInf
  else Value.finite (goAtoi score)

/-- `pacemakerCollector.recordConstraints`. -/
def recordConstraints (cib : CibRoot) : List Sample :=
  cib.configuration.constraints.rscLocations.map fun c =>
    ⟨"location_constraints", constraintScore c.score,
      [c.id, c.node, c.resource, goToLower c.role]⟩

/-- `pacemakerCollector.Collect`: both parses must succeed before any
sample is emitted; then stonith, nodes (with their resources), ungrouped
resources, fail counts, migration thresholds, last-change, constraints. -/
def pacemakerCollect (ansicParse : String → Option Int)
    (crmMon : Option CrmMonRoot) (cib : Option CibRoot) : List Sample :=
  match crmMon with
  | none => []
  | some crm =>
    match cib with
    | none => []
    | some c =>
      ⟨"stonith_enabled",
        Value.finite (if crm.summary.clusterOptions.stonithEnabled then 1 else 0), []⟩ ::
      (recordNodes crm ++ recordUngroupedResources crm ++ recordFailCounts crm ++
        recordMigrationThresholds crm ++ recordResourceAgentsChanges ansicParse crm ++
        recordConstraints c)

/-- One full scrape over both registered collectors.  The two collectors
share no state; a panic in the DRBD pass (second component `true`) kills
the scrape before the remaining samples are served. -/
def scrapeAll (files : List String) (status : Option (List DrbdStatus))
    (ansicParse : String → Option Int) (crmMon : Option CrmMonRoot)
    (cib : Option CibRoot) : List Sample × Bool :=
  let (d, p) := drbdCollect files status
  if p then (d, true)
  else (d ++ pacemakerCollect ansicParse crmMon cib, false)

/-! ## Metric descriptor registry

The `SetDescriptor` calls of the two `NewCollector` constructors, as
(name, ordered label names) pairs.  `nil` label slices become `[]`. -/

def drbdDescriptors : List (String × List String) :=
  [ ("resources", ["resource", "role", "volume", "disk_state"]),
    ("written", ["resource", "volume"]),
    ("read", ["resource", "volume"]),
    ("al_writes", ["resource", "volume"]),
    ("bm_writes", ["resource", "volume"]),
    ("upper_pending", ["resource", "volume"]),
    ("lower_pending", ["resource", "volume"]),
    ("quorum", ["resource", "volume"]),
    ("connections", ["resource", "peer_node_id", "peer_role", "volume", "peer_disk_state"]),
    ("connections_sync", ["resource", "peer_node_id", "volume"]),
    ("connections_received", ["resource", "peer_node_id", "volume"]),
    ("connections_sent", ["resource", "peer_node_id", "volume"]),
    ("connections_pending", ["resource", "peer_node_id", "volume"]),
    ("connections_unacked", ["resource", "peer_node_id", "volume"]),
    ("split_brain", ["resource", "volume"]) ]

def pacemakerDescriptors : List (String × List String) :=
  [ ("nodes", ["node", "type", "status"]),
    ("resources", ["node", "resource", "role", "managed", "status"]),
    ("stonith_enabled", []),
    ("fail_count", ["node", "resource"]),
    ("migration_threshold", ["node", "resource"]),
    ("config_last_change", []),
    ("location_constraints", ["constraint", "node", "resource", "role"]) ]

/-- A sample agrees in arity with its registered descriptor. -/
def labelsMatch (descs : List (String × List String)) (s : Sample) : Prop :=
  ∃ ls, descs.lookup s.name = some ls ∧ s.labels.length = ls.length

/-! ## Claims -/

/-- C8: a marker file named `drbd-split-brain-detected-myres-0` in the
split-brain directory yields exactly one `split_brain` sample of value 1
with label values ("myres", "0"); a file named
`drbd-split-brain-detected-myres`, whose suffix does not split into
exactly two hyphen-separated parts, yields no sample. -/
theorem C8_split_brain_marker_files :
    recordDrbdSplitBrainMetric ["drbd-split-brain-detected-myres-0"] =
      ([⟨"split_brain", Value.finite 1, ["myres", "0"]⟩], false) ∧
    recordDrbdSplitBrainMetric ["drbd-split-brain-detected-myres"] = ([], false) := by
  decide

/-- C2: the split-brain projection does NOT complete without panicking on
every possible directory listing.  On a listing that mixes one marker file
with one unrelated file, the directory-wide glob check passes, and the
unrelated name reaches `strings.Split(name, marker)[1]` on a one-element
slice: an index-out-of-range panic before anything is emitted. -/
theorem C2_split_brain_mixed_listing_panics :
    recordDrbdSplitBrainMetric ["README", "drbd-split-brain-detected-a-0"] =
      ([], true) := by
  decide

/-- C10: if the crm_mon snapshot parses successfully but the cibadmin
snapshot fails to parse, the pacemaker collector emits zero samples for
that scrape — including all metrics derivable from the already-parsed
crm_mon snapshot alone. -/
theorem C10_cib_failure_suppresses_whole_pass (ansicParse : String → Option Int)
    (crmMon : CrmMonRoot) :
    pacemakerCollect ansicParse (some crmMon) none = [] := rfl

/-- C1 counterexample: with a valid marker file in the split-brain
directory and a failing (or unparsable) `drbdsetup`, the block-device pass
still emits one `split_brain` sample — not zero samples as the claim
states. -/
theorem C1_counterexample_split_brain_survives_drbdsetup_failure :
    (drbdCollect ["drbd-split-brain-detected-myres-0"] none).1 =
      [⟨"split_brain", Value.finite 1, ["myres", "0"]⟩] ∧
    (drbdCollect ["drbd-split-brain-detected-myres-0"] none).1 ≠ [] := by
  decide

/-- C1 (amended): if invoking `drbdsetup` fails or its JSON output fails to
parse, the block-device pass emits zero samples derived from the drbdsetup
output (no `resources`, device or connection metrics) — but the
split-brain marker samples, produced before the invocation, are still
emitted; the resource-manager source's pass is unaffected, emitting
exactly what it would emit on its own. -/
theorem C1_amended_drbdsetup_failure_aborts_json_projection
    (files : List String) (ansicParse : String → Option Int)
    (crmMon : Option CrmMonRoot) (cib : Option CibRoot)
    (hnp : (recordDrbdSplitBrainMetric files).2 = false) :
    drbdCollect files none = ((recordDrbdSplitBrainMetric files).1, false) ∧
    scrapeAll files none ansicParse crmMon cib =
      ((recordDrbdSplitBrainMetric files).1 ++ pacemakerCollect ansicParse crmMon cib,
        false) := by
  rcases hR : recordDrbdSplitBrainMetric files with ⟨sb, p⟩
  rw [hR] at hnp
  simp only at hnp
  subst hnp
  constructor
  · simp [drbdCollect, hR]
  · simp [scrapeAll, drbdCollect, hR]

/-- C1 witness: the amended theorem applied to a one-marker listing with
every other source failing. -/
theorem C1_amended_witness :
    drbdCollect ["drbd-split-brain-detected-myres-0"] none =
      ([⟨"split_brain", Value.finite 1, ["myres", "0"]⟩], false) ∧
    scrapeAll ["drbd-split-brain-detected-myres-0"] none (fun _ => none) none none =
      ([⟨"split_brain", Value.finite 1, ["myres", "0"]⟩], false) := by
  have h := C1_amended_drbdsetup_failure_aborts_json_projection
    ["drbd-split-brain-detected-myres-0"] (fun _ => none) none none (by decide)
  refine ⟨?_, ?_⟩
  · rw [h.1]; decide
  · rw [h.2]; decide

/-- All (node name, resource-history entry) pairs of the node-history
section, in traversal order. -/
def historyPairs (crmMon : CrmMonRoot) : List (String × ResourceHistoryEntry) :=
  (crmMon.nodeHistory.node.map fun nh =>
    nh.resourceHistory.map fun rh => (nh.name, rh)).flatten

/-- C4: the fail-count projection emits exactly one `fail_count` sample per
(node, resource) pair of the node-history section, labelled with the pair;
a raw fail count of 1000000 is emitted as positive infinity, and 999999 is
emitted as exactly 999999 (no clamping). -/
theorem C4_fail_count_sentinel (crmMon : CrmMonRoot) :
    recordFailCounts crmMon = (historyPairs crmMon).map
      (fun p => ⟨"fail_count", failCountValue p.2.failCount, [p.1, p.2.name]⟩) ∧
    failCountValue 1000000 = Value.posInf ∧
    failCountValue 999999 = Value.finite 999999 := by
  refine ⟨?_, by decide, by decide⟩
  suffices h : ∀ ns : List NodeHistoryNode,
      (ns.map fun nh => nh.resourceHistory.map fun rh =>
        (⟨"fail_count", failCountValue rh.failCount, [nh.name, rh.name]⟩ : Sample)).flatten =
      ((ns.map fun nh => nh.resourceHistory.map fun rh => (nh.name, rh)).flatten).map
        (fun p => ⟨"fail_count", failCountValue p.2.failCount, [p.1, p.2.name]⟩) by
    simpa [recordFailCounts, historyPairs] using h crmMon.nodeHistory.node
  intro ns
  induction ns with
  | nil => rfl
  | cons nh t ih => simp [ih, List.map_map]

/-! ## Decimal score strings (spec-side vocabulary for C5) -/

/-- An ASCII decimal digit. -/
def isDigitChar (c : Char) : Bool := 48 ≤ c.toNat && c.toNat ≤ 57

/-- The spec's "well-formed signed integer string": one optional sign
followed by at least one digit. -/
def specSignedDecimal (s : String) : Bool :=
  !(signSplit s.data).2.isEmpty && (signSplit s.data).2.all isDigitChar

/-- Unbounded decimal value of a digit list, most significant first. -/
def digitsNatVal (cs : List Char) : Nat :=
  cs.foldl (fun acc c => acc * 10 + (c.toNat - 48)) 0

/-- The unbounded integer a well-formed signed decimal string denotes. -/
def specDecimalValue (s : String) : Int :=
  (if (signSplit s.data).1 then -1 else 1) * (digitsNatVal (signSplit s.data).2 : Int)

theorem decValueAux_eq (cs : List Char) (acc : Nat) :
    decValueAux cs acc =
      if cs.all isDigitChar then
        some (cs.foldl (fun a c => a * 10 + (c.toNat - 48)) acc)
      else none := by
  induction cs generalizing acc with
  | nil => simp [decValueAux]
  | cons c t ih =>
    by_cases h : 48 ≤ c.toNat ∧ c.toNat ≤ 57
    · simp [decValueAux, h, isDigitChar, ih, h.1, h.2]
    · have hd : isDigitChar c = false := by
        simp [isDigitChar]
        omega
      simp [decValueAux, h, hd]

/-- On a well-formed signed decimal string, `strconv.Atoi`'s value
component is the denoted integer clamped into the signed 64-bit range. -/
theorem goAtoi_signed_decimal (s : String) (h : specSignedDecimal s = true) :
    goAtoi s =
      if specDecimalValue s < -(2 ^ 63) then -(2 ^ 63)
      else if specDecimalValue s > 2 ^ 63 - 1 then 2 ^ 63 - 1
      else specDecimalValue s := by
  unfold specSignedDecimal at h
  rcases hs : signSplit s.data with ⟨neg, ds⟩
  rw [hs] at h
  rw [Bool.and_eq_true] at h
  obtain ⟨hne', hall⟩ := h
  have hne : ds ≠ [] := by cases ds <;> simp_all
  have hv : decValueAux ds 0 = some (digitsNatVal ds) := by
    rw [decValueAux_eq, if_pos hall]; rfl
  simp only [goAtoi, specDecimalValue, hs, if_neg hne, hv]
  cases neg <;> · simp only [Bool.false_eq_true, if_false, if_true]
                  split_ifs <;> omega

/-- On anything that is not a well-formed signed decimal string,
`strconv.Atoi`'s value component is 0. -/
theorem goAtoi_syntax_error (s : String) (h : specSignedDecimal s = false) :
    goAtoi s = 0 := by
  unfold specSignedDecimal at h
  rcases hs : signSplit s.data with ⟨neg, ds⟩
  rw [hs] at h
  by_cases hne : ds = []
  · subst hne; simp [goAtoi, hs]
  · by_cases hall : ds.all isDigitChar
    · exfalso
      have h1 : (!ds.isEmpty) = true := by cases ds <;> simp_all
      rw [h1, hall] at h
      simp at h
    · have hv : decValueAux ds 0 = none := by
        rw [decValueAux_eq, if_neg hall]
      simp [goAtoi, hs, if_neg hne, hv]

/-- C5 counterexample: the constraint score "99999999999999999999" (a
decimal string above the signed 64-bit range) is emitted neither as the
integer it denotes nor as 0.0: `strconv.Atoi`'s discarded-error value is
the clamped `math.MaxInt64`, which the sample carries. -/
theorem C5_counterexample_out_of_range_score :
    recordConstraints ⟨⟨⟨[⟨"c1", "node1", "res1", "Master", "99999999999999999999"⟩]⟩⟩⟩ =
      [⟨"location_constraints", Value.finite 9223372036854775807,
        ["c1", "node1", "res1", "master"]⟩] ∧
    (9223372036854775807 : ℚ) ≠ 0 ∧
    (9223372036854775807 : ℚ) ≠ 99999999999999999999 := by
  decide

/-- C5 (amended): for every location constraint exactly one
`location_constraints` sample is emitted, whose value decodes the score
string as: "INFINITY" yields +infinity, "-INFINITY" yields -infinity, a
signed decimal string within the signed 64-bit range (such as "150")
yields that integer, a signed decimal string above (below) that range
yields the clamped maximum (minimum) 64-bit value, and any other string
yields 0, without aborting the pass. -/
theorem C5_amended_location_constraint_scores (cib : CibRoot) :
    (recordConstraints cib).length = cib.configuration.constraints.rscLocations.length ∧
    (∀ (i : Nat) (c : RscLocation), cib.configuration.constraints.rscLocations[i]? = some c →
      (recordConstraints cib)[i]? =
        some ⟨"location_constraints", constraintScore c.score,
          [c.id, c.node, c.resource, goToLower c.role]⟩) ∧
    constraintScore "INFINITY" = Value.posInf ∧
    constraintScore "-INFINITY" = Value.negInf ∧
    constraintScore "150" = Value.finite 150 ∧
    (∀ sc : String, specSignedDecimal sc = true →
      -(2 ^ 63) ≤ specDecimalValue sc → specDecimalValue sc ≤ 2 ^ 63 - 1 →
      constraintScore sc = Value.finite (specDecimalValue sc)) ∧
    (∀ sc : String, specSignedDecimal sc = true → specDecimalValue sc > 2 ^ 63 - 1 →
      constraintScore sc = Value.finite ((2 : ℚ) ^ 63 - 1)) ∧
    (∀ sc : String, specSignedDecimal sc = true → specDecimalValue sc < -(2 ^ 63) →
      constraintScore sc = Value.finite (-((2 : ℚ) ^ 63))) ∧
    (∀ sc : String, sc ≠ "INFINITY" → sc ≠ "-INFINITY" → specSignedDecimal sc = false →
      constraintScore sc = Value.finite 0) := by
  have hInfNotDec : ∀ sc : String, specSignedDecimal sc = true →
      sc ≠ "INFINITY" ∧ sc ≠ "-INFINITY" := by
    intro sc hsc
    constructor <;> rintro rfl <;> exact absurd hsc (by decide)
  refine ⟨by simp [recordConstraints], ?_, by decide, by decide, by decide, ?_, ?_, ?_, ?_⟩
  · intro i c hc
    simp [recordConstraints, List.getElem?_map, hc]
  · intro sc hsc h1 h2
    obtain ⟨hni, hnni⟩ := hInfNotDec sc hsc
    rw [constraintScore, if_neg hni, if_neg hnni, goAtoi_signed_decimal sc hsc]
    rw [if_neg (by omega), if_neg (by omega)]
  · intro sc hsc h1
    obtain ⟨hni, hnni⟩ := hInfNotDec sc hsc
    rw [constraintScore, if_neg hni, if_neg hnni, goAtoi_signed_decimal sc hsc]
    rw [if_neg (by omega), if_pos (by omega)]
    norm_num
  · intro sc hsc h1
    obtain ⟨hni, hnni⟩ := hInfNotDec sc hsc
    rw [constraintScore, if_neg hni, if_neg hnni, goAtoi_signed_decimal sc hsc]
    rw [if_pos (by omega)]
    norm_num
  · intro sc hni hnni hsc
    rw [constraintScore, if_neg hni, if_neg hnni, goAtoi_syntax_error sc hsc]
    rfl

/-- C5 witness: the amended decode table exercised on concrete scores. -/
theorem C5_amended_witness :
    constraintScore "150" = Value.finite 150 ∧
    constraintScore "junk" = Value.finite 0 ∧
    constraintScore "99999999999999999999" = Value.finite ((2 : ℚ) ^ 63 - 1) ∧
    constraintScore "-99999999999999999999" = Value.finite (-((2 : ℚ) ^ 63)) := by
  obtain ⟨h1, h2, h3, h4, h5, h6, h7, h8, h9⟩ :=
    C5_amended_location_constraint_scores ⟨⟨⟨[]⟩⟩⟩
  exact ⟨h6 "150" (by decide) (by decide) (by decide),
         h9 "junk" (by decide) (by decide) (by decide),
         h7 "99999999999999999999" (by decide) (by decide),
         h8 "-99999999999999999999" (by decide) (by decide)⟩

/-- C3 counterexample: the role label of the DRBD `resources` presence
sample is `resource.Role` verbatim — for input role "Primary" the emitted
label is "Primary", which is not lower-case (only `disk_state` goes
through `strings.ToLower` in that sample). -/
theorem C3_counterexample_drbd_role_label_verbatim :
    (drbdResourceSamples
        ⟨"res0", "Primary", [⟨0, 0, 0, 0, 0, 0, 0, true, "UpToDate"⟩], []⟩).head? =
      some ⟨"resources", Value.finite 1, ["res0", "Primary", "0", "uptodate"]⟩ ∧
    "Primary" ≠ goToLower "Primary" := by
  decide

/-- C3 (amended): the role label of the pacemaker `resources` samples and
of the `location_constraints` samples, and the disk-state and
peer-disk-state labels of the DRBD `resources` and `connections` samples,
are lower-cased on output; the role label of the DRBD `resources`
presence sample, however, is emitted verbatim without case
normalization. -/
theorem C3_amended_case_normalization
    (r : CrmMonResource) (nodeName : String) (cib : CibRoot) (i : Nat) (c : RscLocation)
    (resName resRole : String) (d : DrbdDevice) (peerNodeID : Int) (peerRole : String)
    (pd : DrbdPeerDevice) :
    (∀ s ∈ recordResource r nodeName, s.labels[2]? = some (goToLower r.role)) ∧
    (cib.configuration.constraints.rscLocations[i]? = some c →
      (recordConstraints cib)[i]? =
        some ⟨"location_constraints", constraintScore c.score,
          [c.id, c.node, c.resource, goToLower c.role]⟩) ∧
    (drbdDeviceSamples resName resRole d).head? =
      some ⟨"resources", Value.finite 1,
        [resName, resRole, goItoa d.volume, goToLower d.diskState]⟩ ∧
    (drbdPeerDeviceSamples resName peerNodeID peerRole pd).head? =
      some ⟨"connections", Value.finite 1,
        [resName, goItoa peerNodeID, peerRole, goItoa pd.volume,
          goToLower pd.peerDiskState]⟩ := by
  refine ⟨?_, ?_, rfl, rfl⟩
  · intro s hs
    rw [recordResource, List.mem_filterMap] at hs
    obtain ⟨sf, hmem, heq⟩ := hs
    by_cases hb : sf.2 = true
    · rw [if_pos hb] at heq
      cases heq
      rfl
    · rw [if_neg hb] at heq
      cases heq
  · intro hc
    simp [recordConstraints, List.getElem?_map, hc]

/-- C3 witness: the amended normalization statement exercised on concrete
snapshots. -/
theorem C3_amended_witness :
    (⟨"resources", Value.finite 1, ["node1", "r1", "started", "true", "active"]⟩ :
        Sample).labels[2]? = some (goToLower "Started") ∧
    (recordConstraints ⟨⟨⟨[⟨"c1", "n1", "rs1", "Master", "1"⟩]⟩⟩⟩)[0]? =
      some ⟨"location_constraints", constraintScore "1", ["c1", "n1", "rs1", "master"]⟩ := by
  have h := C3_amended_case_normalization
    ⟨"r1", "Started", true, true, false, false, false, false⟩ "node1"
    ⟨⟨⟨[⟨"c1", "n1", "rs1", "Master", "1"⟩]⟩⟩⟩ 0 ⟨"c1", "n1", "rs1", "Master", "1"⟩
    "res0" "Primary" ⟨0, 0, 0, 0, 0, 0, 0, true, "UpToDate"⟩ 1 "Secondary"
    ⟨0, 0, 0, 0, 0, "Diskless", 100⟩
  refine ⟨h.1 _ (by decide), ?_⟩
  rw [h.2.1 (by decide)]
  decide

/-! ## Shape lemmas for the pacemaker emitters -/

theorem nodeStatusSamples_mem (n : CrmMonNode) (s : Sample)
    (hs : s ∈ nodeStatusSamples n) :
    s.name = "nodes" ∧ s.value = Value.finite 1 ∧ s.labels[0]? = some n.name ∧
    s.labels[1]? = some (nodeType n.type) ∧ s.labels.length = 3 := by
  rw [nodeStatusSamples, List.mem_filterMap] at hs
  obtain ⟨sf, hmem, heq⟩ := hs
  by_cases hb : sf.2 = true
  · rw [if_pos hb] at heq
    cases heq
    exact ⟨rfl, rfl, rfl, rfl, rfl⟩
  · rw [if_neg hb] at heq
    cases heq

theorem recordResource_mem (r : CrmMonResource) (nodeName : String) (s : Sample)
    (hs : s ∈ recordResource r nodeName) :
    s.name = "resources" ∧ s.value = Value.finite 1 ∧
    s.labels[0]? = some nodeName ∧ s.labels[1]? = some r.id ∧
    s.labels[2]? = some (goToLower r.role) ∧
    s.labels[3]? = some (goFormatBool r.managed) ∧ s.labels.length = 5 := by
  rw [recordResource, List.mem_filterMap] at hs
  obtain ⟨sf, hmem, heq⟩ := hs
  by_cases hb : sf.2 = true
  · rw [if_pos hb] at heq
    cases heq
    exact ⟨rfl, rfl, rfl, rfl, rfl, rfl, rfl⟩
  · rw [if_neg hb] at heq
    cases heq

/-- Number of true status flags of a node, out of the nine. -/
def trueNodeFlagCount (n : CrmMonNode) : Nat :=
  ((nodeStatuses n).filter (·.2)).length

/-- C6: a node with k of its 9 status flags true contributes exactly k
`nodes` samples of value 1, each carrying a distinct flag-name status
label and the node's name; the type label is the node's type when it is
member/ping/remote and "unknown" otherwise; the node's other samples (its
resources) are not `nodes` samples. -/
theorem C6_node_status_projection (n : CrmMonNode) (t : String) :
    (nodeStatusSamples n).length = trueNodeFlagCount n ∧
    (∀ s ∈ nodeStatusSamples n, s.name = "nodes" ∧ s.value = Value.finite 1 ∧
      s.labels[0]? = some n.name ∧ s.labels[1]? = some (nodeType n.type)) ∧
    ((nodeStatusSamples n).map fun s => s.labels[2]?).Nodup ∧
    (nodeStatusSamples n ++ recordNodeResources n).filter
      (fun s => s.name == "nodes") = nodeStatusSamples n ∧
    ((t = "member" ∨ t = "ping" ∨ t = "remote") → nodeType t = t) ∧
    (¬(t = "member" ∨ t = "ping" ∨ t = "remote") → nodeType t = "unknown") := by
  refine ⟨?_, ?_, ?_, ?_, ?_, ?_⟩
  · rw [nodeStatusSamples, trueNodeFlagCount]
    generalize nodeStatuses n = l
    induction l with
    | nil => rfl
    | cons a tl ih => by_cases hb : a.2 <;> simp [hb, ih]
  · intro s hs
    obtain ⟨h1, h2, h3, h4, _⟩ := nodeStatusSamples_mem n s hs
    exact ⟨h1, h2, h3, h4⟩
  · have hmap : (nodeStatusSamples n).map (fun s => s.labels[2]?) =
        ((nodeStatuses n).filter (·.2)).map (fun sf => some sf.1) := by
      rw [nodeStatusSamples]
      generalize nodeStatuses n = l
      induction l with
      | nil => rfl
      | cons a tl ih => by_cases hb : a.2 <;> simp [hb, ih]
    rw [hmap]
    have hsub : List.Sublist (((nodeStatuses n).filter (·.2)).map (fun sf => some sf.1))
        ((nodeStatuses n).map (fun sf => some sf.1)) :=
      ((nodeStatuses n).filter_sublist).map _
    have hfull : (nodeStatuses n).map (fun sf => some sf.1) =
        [some "online", some "standby", some "standby_onfail", some "maintenance",
          some "pending", some "unclean", some "shutdown", some "expected_up",
          some "dc"] := rfl
    rw [hfull] at hsub
    exact hsub.nodup (by decide)
  · rw [List.filter_append]
    rw [List.filter_eq_self.mpr fun s hs => by
      rw [(nodeStatusSamples_mem n s hs).1]; rfl]
    rw [List.filter_eq_nil_iff.mpr fun s hs => by
      rw [recordNodeResources, List.mem_flatten] at hs
      obtain ⟨l, hl, hsl⟩ := hs
      rw [List.mem_map] at hl
      obtain ⟨r, _, hr⟩ := hl
      subst hr
      rw [(recordResource_mem r n.name s hsl).1]
      decide]
    exact List.append_nil _
  · intro h
    rw [nodeType, if_pos h]
  · intro h
    rw [nodeType, if_neg h]

/-- C6 witness: the node projection exercised on a concrete node with two
true flags, and the type normalization on "ping" and on an unknown type. -/
theorem C6_witness :
    nodeType "ping" = "ping" ∧ nodeType "weird" = "unknown" ∧
    (⟨"nodes", Value.finite 1, ["n1", "member", "online"]⟩ : Sample).name = "nodes" ∧
    (nodeStatusSamples
      ⟨"n1", "member", true, false, false, false, false, false, false, false, true,
        []⟩).length =
      trueNodeFlagCount
        ⟨"n1", "member", true, false, false, false, false, false, false, false, true,
          []⟩ := by
  have h1 := C6_node_status_projection
    ⟨"n1", "member", true, false, false, false, false, false, false, false, true, []⟩
    "ping"
  have h2 := C6_node_status_projection
    ⟨"n1", "member", true, false, false, false, false, false, false, false, true, []⟩
    "weird"
  exact ⟨h1.2.2.2.2.1 (Or.inr (Or.inl rfl)), h2.2.2.2.2.2 (by decide),
    (h1.2.1 _ (by decide)).1, h1.1⟩

/-- Indicator of one boolean status flag. -/
def boolNat (b : Bool) : Nat := if b then 1 else 0

/-- Number of true status flags of a resource, out of the five real ones
(`active`, `orphaned`, `blocked`, `failed`, `failure_ignored`). -/
def trueResourceFlagCount (r : CrmMonResource) : Nat :=
  boolNat r.active + boolNat r.orphaned + boolNat r.blocked + boolNat r.failed +
    boolNat r.failureIgnored

/-- C7: a resource with all 5 status flags false yields exactly one
`resources` sample whose status label is the empty string; with k > 0 true
flags it yields exactly k samples; every sample carries the lower-cased
role and the boolean literal string for managed; ungrouped resources are
emitted with an empty node label. -/
theorem C7_resource_status_samples (r : CrmMonResource) (nodeName : String)
    (crmMon : CrmMonRoot) :
    (trueResourceFlagCount r = 0 →
      recordResource r nodeName =
        [⟨"resources", Value.finite 1,
          [nodeName, r.id, goToLower r.role, goFormatBool r.managed, ""]⟩]) ∧
    (0 < trueResourceFlagCount r →
      (recordResource r nodeName).length = trueResourceFlagCount r) ∧
    (∀ s ∈ recordResource r nodeName,
      s.labels[2]? = some (goToLower r.role) ∧
      s.labels[3]? = some (goFormatBool r.managed)) ∧
    (goFormatBool r.managed = "true" ∨ goFormatBool r.managed = "false") ∧
    (∀ s ∈ recordUngroupedResources crmMon, s.labels[0]? = some "") := by
  refine ⟨?_, ?_, ?_, ?_, ?_⟩
  · rcases r with ⟨rid, rrole, rman, a, o, b, f, fi⟩
    cases a <;> cases o <;> cases b <;> cases f <;> cases fi <;> intro h0 <;>
      first
        | rfl
        | simp [trueResourceFlagCount, boolNat] at h0
  · rcases r with ⟨rid, rrole, rman, a, o, b, f, fi⟩
    cases a <;> cases o <;> cases b <;> cases f <;> cases fi <;> intro hk <;>
      first
        | (simp [recordResource, resourceStatuses, trueResourceFlagCount, boolNat]; done)
        | simp [trueResourceFlagCount, boolNat] at hk
  · intro s hs
    obtain ⟨_, _, _, _, h2, h3, _⟩ := recordResource_mem r nodeName s hs
    exact ⟨h2, h3⟩
  · cases hm : r.managed <;> simp [goFormatBool, hm]
  · intro s hs
    rw [recordUngroupedResources, List.mem_flatten] at hs
    obtain ⟨l, hl, hsl⟩ := hs
    rw [List.mem_map] at hl
    obtain ⟨rr, _, hrr⟩ := hl
    subst hrr
    exact (recordResource_mem rr "" s hsl).2.2.1

/-- C7 witness: an all-flags-false resource yields the single empty-status
sample; a two-flag resource yields two samples. -/
theorem C7_witness :
    recordResource ⟨"r1", "Stopped", false, false, false, false, false, false⟩ "n1" =
      [⟨"resources", Value.finite 1, ["n1", "r1", "stopped", "false", ""]⟩] ∧
    (recordResource ⟨"r2", "Started", true, true, false, false, true, false⟩ "n1").length =
      trueResourceFlagCount ⟨"r2", "Started", true, true, false, false, true, false⟩ := by
  have h1 := C7_resource_status_samples
    ⟨"r1", "Stopped", false, false, false, false, false, false⟩ "n1"
    ⟨⟨⟨false⟩, ⟨""⟩⟩, [], [], ⟨[]⟩⟩
  have h2 := C7_resource_status_samples
    ⟨"r2", "Started", true, true, false, false, true, false⟩ "n1"
    ⟨⟨⟨false⟩, ⟨""⟩⟩, [], [], ⟨[]⟩⟩
  refine ⟨?_, h2.2.1 (by decide)⟩
  rw [h1.1 (by decide)]
  decide

/-! ## Arity lemmas -/

theorem splitBrainStep_mem (hasMatch : Bool) (fname : String) (ss : List Sample)
    (hss : splitBrainStep hasMatch fname = some ss) :
    ∀ s ∈ ss, s.name = "split_brain" ∧ s.labels.length = 2 := by
  rw [splitBrainStep] at hss
  split at hss
  · cases hss
    intro s hs
    simp at hs
  · split at hss
    · cases hss
    · cases hss
    · split at hss
      · cases hss
        intro s hs
        simp at hs
        subst hs
        exact ⟨rfl, rfl⟩
      · cases hss
        intro s hs
        simp at hs

theorem splitBrainGo_mem (hasMatch : Bool) (files : List String) :
    ∀ s ∈ (recordDrbdSplitBrainMetric.go hasMatch files).1,
      s.name = "split_brain" ∧ s.labels.length = 2 := by
  induction files with
  | nil =>
    intro s hs
    simp [recordDrbdSplitBrainMetric.go] at hs
  | cons f rest ih =>
    intro s hs
    rw [recordDrbdSplitBrainMetric.go] at hs
    rcases hstep : splitBrainStep hasMatch f with _ | ss
    · rw [hstep] at hs
      simp at hs
    · rw [hstep] at hs
      simp only at hs
      rcases List.mem_append.mp hs with hl | hr
      · exact splitBrainStep_mem hasMatch f ss hstep s hl
      · exact ih s hr

theorem drbdDeviceSamples_arity (resName resRole : String) (d : DrbdDevice) :
    ∀ s ∈ drbdDeviceSamples resName resRole d, labelsMatch drbdDescriptors s := by
  intro s hs
  by_cases hq : d.quorum
  · simp [drbdDeviceSamples, hq] at hs
    rcases hs with rfl | rfl | rfl | rfl | rfl | rfl | rfl | rfl <;> exact ⟨_, rfl, rfl⟩
  · simp [drbdDeviceSamples, hq] at hs
    rcases hs with rfl | rfl | rfl | rfl | rfl | rfl | rfl | rfl <;> exact ⟨_, rfl, rfl⟩

theorem drbdPeerDeviceSamples_arity (resName : String) (peerNodeID : Int)
    (peerRole : String) (pd : DrbdPeerDevice) :
    ∀ s ∈ drbdPeerDeviceSamples resName peerNodeID peerRole pd,
      labelsMatch drbdDescriptors s := by
  intro s hs
  simp [drbdPeerDeviceSamples] at hs
  rcases hs with rfl | rfl | rfl | rfl | rfl | rfl <;> exact ⟨_, rfl, rfl⟩

theorem drbdResourceSamples_arity (r : DrbdStatus) :
    ∀ s ∈ drbdResourceSamples r, labelsMatch drbdDescriptors s := by
  intro s hs
  rw [drbdResourceSamples] at hs
  rcases List.mem_append.mp hs with hl | hr
  · rw [List.mem_flatten] at hl
    obtain ⟨l, hl1, hl2⟩ := hl
    rw [List.mem_map] at hl1
    obtain ⟨d, _, hd⟩ := hl1
    subst hd
    exact drbdDeviceSamples_arity r.name r.role d s hl2
  · split at hr
    · simp at hr
    · rw [List.mem_flatten] at hr
      obtain ⟨l, hl1, hl2⟩ := hr
      rw [List.mem_map] at hl1
      obtain ⟨conn, _, hc⟩ := hl1
      subst hc
      rw [drbdConnectionSamples] at hl2
      split at hl2
      · simp at hl2
      · rw [List.mem_flatten] at hl2
        obtain ⟨l2, hm1, hm2⟩ := hl2
        rw [List.mem_map] at hm1
        obtain ⟨pd, _, hp⟩ := hm1
        subst hp
        exact drbdPeerDeviceSamples_arity r.name conn.peerNodeID conn.peerRole pd s hm2

theorem recordNodes_arity (crmMon : CrmMonRoot) :
    ∀ s ∈ recordNodes crmMon, labelsMatch pacemakerDescriptors s := by
  intro s hs
  rw [recordNodes, List.mem_flatten] at hs
  obtain ⟨l, hl, hsl⟩ := hs
  rw [List.mem_map] at hl
  obtain ⟨n, _, hn⟩ := hl
  subst hn
  rcases List.mem_append.mp hsl with hl | hr
  · obtain ⟨h1, _, _, _, hlen⟩ := nodeStatusSamples_mem n s hl
    exact ⟨["node", "type", "status"], by rw [h1]; rfl, by rw [hlen]; rfl⟩
  · rw [recordNodeResources, List.mem_flatten] at hr
    obtain ⟨l2, hl2, hsl2⟩ := hr
    rw [List.mem_map] at hl2
    obtain ⟨r, _, hrr⟩ := hl2
    subst hrr
    obtain ⟨h1, _, _, _, _, _, hlen⟩ := recordResource_mem r n.name s hsl2
    exact ⟨["node", "resource", "role", "managed", "status"], by rw [h1]; rfl,
      by rw [hlen]; rfl⟩

theorem recordUngroupedResources_arity (crmMon : CrmMonRoot) :
    ∀ s ∈ recordUngroupedResources crmMon, labelsMatch pacemakerDescriptors s := by
  intro s hs
  rw [recordUngroupedResources, List.mem_flatten] at hs
  obtain ⟨l, hl, hsl⟩ := hs
  rw [List.mem_map] at hl
  obtain ⟨r, _, hrr⟩ := hl
  subst hrr
  obtain ⟨h1, _, _, _, _, _, hlen⟩ := recordResource_mem r "" s hsl
  exact ⟨["node", "resource", "role", "managed", "status"], by rw [h1]; rfl,
    by rw [hlen]; rfl⟩

theorem recordFailCounts_arity (crmMon : CrmMonRoot) :
    ∀ s ∈ recordFailCounts crmMon, labelsMatch pacemakerDescriptors s := by
  intro s hs
  rw [recordFailCounts, List.mem_flatten] at hs
  obtain ⟨l, hl, hsl⟩ := hs
  rw [List.mem_map] at hl
  obtain ⟨nh, _, hn⟩ := hl
  subst hn
  rw [List.mem_map] at hsl
  obtain ⟨rh, _, hr⟩ := hsl
  subst hr
  exact ⟨_, rfl, rfl⟩

theorem recordMigrationThresholds_arity (crmMon : CrmMonRoot) :
    ∀ s ∈ recordMigrationThresholds crmMon, labelsMatch pacemakerDescriptors s := by
  intro s hs
  rw [recordMigrationThresholds, List.mem_flatten] at hs
  obtain ⟨l, hl, hsl⟩ := hs
  rw [List.mem_map] at hl
  obtain ⟨nh, _, hn⟩ := hl
  subst hn
  rw [List.mem_map] at hsl
  obtain ⟨rh, _, hr⟩ := hsl
  subst hr
  exact ⟨_, rfl, rfl⟩

theorem recordResourceAgentsChanges_arity (ansicParse : String → Option Int)
    (crmMon : CrmMonRoot) :
    ∀ s ∈ recordResourceAgentsChanges ansicParse crmMon,
      labelsMatch pacemakerDescriptors s := by
  intro s hs
  rw [recordResourceAgentsChanges] at hs
  split at hs
  · simp at hs
  · simp at hs
    subst hs
    exact ⟨_, rfl, rfl⟩

theorem recordConstraints_arity (cib : CibRoot) :
    ∀ s ∈ recordConstraints cib, labelsMatch pacemakerDescriptors s := by
  intro s hs
  rw [recordConstraints, List.mem_map] at hs
  obtain ⟨c, _, hc⟩ := hs
  subst hc
  exact ⟨_, rfl, rfl⟩

/-- C9: every sample emitted by either collector, on any snapshot, supplies
exactly as many label values as its registered descriptor has label names;
the registered arities are 3 for `nodes`, 5 for the pacemaker `resources`,
0 for `stonith_enabled` and `config_last_change`, 2 for `fail_count`,
`migration_threshold`, `split_brain` and the per-device DRBD gauges, 4 for
`location_constraints` and the DRBD `resources`, 5 for `connections`, and
3 for the `connections_*` gauges. -/
theorem C9_label_arity (files : List String) (status : Option (List DrbdStatus))
    (ansicParse : String → Option Int) (crmMon : Option CrmMonRoot)
    (cib : Option CibRoot) :
    (∀ s ∈ (drbdCollect files status).1, labelsMatch drbdDescriptors s) ∧
    (∀ s ∈ pacemakerCollect ansicParse crmMon cib, labelsMatch pacemakerDescriptors s) ∧
    (pacemakerDescriptors.lookup "nodes").map List.length = some 3 ∧
    (pacemakerDescriptors.lookup "resources").map List.length = some 5 ∧
    (pacemakerDescriptors.lookup "stonith_enabled").map List.length = some 0 ∧
    (pacemakerDescriptors.lookup "config_last_change").map List.length = some 0 ∧
    (pacemakerDescriptors.lookup "fail_count").map List.length = some 2 ∧
    (pacemakerDescriptors.lookup "migration_threshold").map List.length = some 2 ∧
    (pacemakerDescriptors.lookup "location_constraints").map List.length = some 4 ∧
    (drbdDescriptors.lookup "split_brain").map List.length = some 2 ∧
    ((["written", "read", "al_writes", "bm_writes", "upper_pending", "lower_pending",
        "quorum"].map fun nm => (drbdDescriptors.lookup nm).map List.length) =
      List.replicate 7 (some 2)) ∧
    (drbdDescriptors.lookup "resources").map List.length = some 4 ∧
    (drbdDescriptors.lookup "connections").map List.length = some 5 ∧
    ((["connections_sync", "connections_received", "connections_sent",
        "connections_pending", "connections_unacked"].map fun nm =>
        (drbdDescriptors.lookup nm).map List.length) = List.replicate 5 (some 3)) := by
  refine ⟨?_, ?_, by decide, by decide, by decide, by decide, by decide, by decide,
    by decide, by decide, by decide, by decide, by decide, by decide⟩
  · intro s hs
    rw [drbdCollect] at hs
    rcases hR : recordDrbdSplitBrainMetric files with ⟨sb, p⟩
    rw [hR] at hs
    have hsb : ∀ s ∈ sb, labelsMatch drbdDescriptors s := by
      intro s2 hs2
      have h2 := splitBrainGo_mem (splitBrainGlobMatches files) files s2 (by
        rw [recordDrbdSplitBrainMetric] at hR
        rw [hR]
        exact hs2)
      exact ⟨["resource", "volume"], by rw [h2.1]; rfl, by rw [h2.2]; rfl⟩
    rcases p with _ | _
    · simp only [Bool.false_eq_true, if_false] at hs
      rcases status with _ | resources
      · exact hsb s hs
      · simp only at hs
        rcases List.mem_append.mp hs with hl | hr
        · exact hsb s hl
        · rw [List.mem_flatten] at hr
          obtain ⟨l, hl1, hl2⟩ := hr
          rw [List.mem_map] at hl1
          obtain ⟨r, _, hrr⟩ := hl1
          subst hrr
          exact drbdResourceSamples_arity r s hl2
    · simp only [if_true] at hs
      exact hsb s hs
  · intro s hs
    rcases crmMon with _ | crm
    · simp [pacemakerCollect] at hs
    · rcases cib with _ | c
      · simp [pacemakerCollect] at hs
      · rw [pacemakerCollect] at hs
        rcases List.mem_cons.mp hs with hstonith | hrest
        · subst hstonith
          exact ⟨_, rfl, rfl⟩
        · rcases List.mem_append.mp hrest with h1 | hcon
          · rcases List.mem_append.mp h1 with h2 | hlast
            · rcases List.mem_append.mp h2 with h3 | hmig
              · rcases List.mem_append.mp h3 with h4 | hfail
                · rcases List.mem_append.mp h4 with h5 | hung
                  · exact recordNodes_arity crm s h5
                  · exact recordUngroupedResources_arity crm s hung
                · exact recordFailCounts_arity crm s hfail
              · exact recordMigrationThresholds_arity crm s hmig
            · exact recordResourceAgentsChanges_arity ansicParse crm s hlast
          · exact recordConstraints_arity c s hcon

/-- C9 witness: the arity invariant exercised on a concrete scrape with one
sample from each collector. -/
theorem C9_witness :
    labelsMatch drbdDescriptors ⟨"split_brain", Value.finite 1, ["a", "0"]⟩ ∧
    labelsMatch pacemakerDescriptors ⟨"stonith_enabled", Value.finite 1, []⟩ := by
  have h := C9_label_arity ["drbd-split-brain-detected-a-0"] none (fun _ => none)
    (some ⟨⟨⟨true⟩, ⟨""⟩⟩, [], [], ⟨[]⟩⟩) (some ⟨⟨⟨[]⟩⟩⟩)
  exact ⟨h.1 _ (by decide), h.2.1 _ (by decide)⟩
